import Mathlib

/-!
# go-http-metric: the metric middleware

A shallow embedding of `pkg/middleware/metrics.go`.

* `MetricMiddleware` carries the fields of the Go struct, `World` adds what the
  struct lives in: the goroutines started, the calls made on the sink, the
  callback and the handlers (`log`), the number of sinks built, and a clock.
* Each goroutine body is a function from the result of its channel receive to
  its effect on the world; `step` pairs the two ends of a channel operation and
  gives the loop-iteration transition system of the background tasks.
* `counter` is an `int64`: `counter += 1` wraps around (`wrapInt64`); the sink
  takes `float32` values (`float32`).
* The statements about the code come last, each under the number of the claim
  it settles (`C1` to `C10`).
-/

namespace Middleware

/-! ## Machine numbers -/

/-- Largest `int64`. -/
def maxInt64 : Int := 2 ^ 63 - 1

/-- Value of an `int64` expression whose mathematical value is `x`
(two's complement wrap-around). -/
def wrapInt64 (x : Int) : Int := (x + 2 ^ 63) % 2 ^ 64 - 2 ^ 63

/-- Spacing of the `float32` values at magnitude `m`: 1 below `2^24` and, from
there on, twice the spacing at `m / 2`; `fuel` bounds the number of halvings. -/
def ulp32 : Nat → Nat → Nat
  | 0, _ => 1
  | fuel + 1, m => if m < 2 ^ 24 then 1 else 2 * ulp32 fuel (m / 2)

/-- Conversion `float32(x)` of an integer: rounded to 24 significant bits, to
nearest with ties to even, hence exact below `2^24`. The result of converting an
integer is an integer again and is returned as its exact value. -/
def float32 (x : Int) : Int :=
  let m := x.natAbs
  let ulp := ulp32 m m
  let q := m / ulp
  let r := m % ulp
  let q' := if ulp < 2 * r ∨ (2 * r = ulp ∧ q % 2 = 1) then q + 1 else q
  Int.sign x * ((q' * ulp : Nat) : Int)

/-! ## Data model -/

/-- The four goroutines started by `initialize` (lines 62-65). -/
inductive Task where
  | watchRequestsPerSecond
  | watchCounter
  | watchReset
  | startReset
  deriving DecidableEq, Repr

/-- A Go channel: its capacity, every value sent on it so far (oldest first),
how many of them have been received, and whether it has been closed. -/
structure Chan (α : Type) where
  cap : Nat
  sent : List α
  recvd : Nat
  closed : Bool
  deriving DecidableEq, Repr

/-- Channel built by `make(chan T, cap)`. -/
def Chan.make {α : Type} (cap : Nat) : Chan α := ⟨cap, [], 0, false⟩

/-- Values sent and not yet received. -/
def Chan.buffered {α : Type} (c : Chan α) : List α := c.sent.drop c.recvd

/-- A completed send. -/
def Chan.push {α : Type} (c : Chan α) (v : α) : Chan α := { c with sent := c.sent ++ [v] }

/-- A completed receive. -/
def Chan.pop {α : Type} (c : Chan α) : Chan α := { c with recvd := c.recvd + 1 }

/-- Effect of `close(c)` on an open channel. -/
def Chan.close {α : Type} (c : Chan α) : Chan α := { c with closed := true }

/-- The part of `url.URL` a request is told apart by. -/
structure URL where
  Path : String
  RawQuery : String
  deriving DecidableEq, Repr

/-- The part of `http.Request` the middleware can see: the request target as
sent by the client (`RequestURI`, query string included) and the parsed `URL`. -/
structure Request where
  RequestURI : String
  URL : URL
  deriving DecidableEq, Repr

/-- Calls made on the metric sink, on the callback, on the wrapped handler and
on the prometheus exporter. -/
inductive Event where
  | AddSample (key : List String) (val : Int)
  | SetGauge (key : List String) (val : Int)
  | IncrCounter (key : List String) (val : Int)
  | RequestPerSecondFunc (current : Int)
  | HandlerServeHTTP (r : Request)
  | PromhttpServeHTTP (r : Request)
  deriving DecidableEq, Repr

/-- The struct `MetricMiddleware` (lines 18-37). `Handler` is observed through
`Event.HandlerServeHTTP` and `Env.handler`; `RequestPerSecondFunc` is
`true` when the field is not nil; `metricSink` is nil or the number of the sink
built for it; `counterLock` is nil or a mutex that is locked (`true`) or not. -/
structure MetricMiddleware where
  PrometheusEndpoint : String
  RequestPerSecondFunc : Bool
  Name : String
  metricSink : Option Nat
  counterLock : Option Bool
  counter : Int
  counterChan : Option (Chan Unit)
  resetChan : Option (Chan Unit)
  requestsPerSecond : Option (Chan Int)
  deriving DecidableEq, Repr

/-- A middleware together with the process it runs in. -/
structure World extends MetricMiddleware where
  /-- goroutines started and not yet returned -/
  tasks : List Task
  /-- sinks built by `prometheus.NewPrometheusSink` -/
  sinks : Nat
  /-- calls made so far, oldest first -/
  log : List Event
  /-- monotonic clock, in nanoseconds -/
  clock : Nat
  /-- an unrecovered panic has ended the process -/
  panicked : Bool
  /-- the goroutine `watchCounter` has taken a signal at line 115 and has not
  yet run lines 120-123 for it -/
  holding : Bool
  deriving DecidableEq, Repr

/-- What the surroundings answer: whether `NewPrometheusSink` fails, what
`os.Hostname` returns, and how long things take, in nanoseconds: from
`time.Now()` to the `defer` statement, inside `increment()`, and inside the
wrapped handler. -/
structure Env where
  sinkFails : Bool
  hostname : Option String
  deferDelay : Nat
  incrementDelay : Nat
  handler : Request → Nat

/-- Ways a call does not return normally. -/
inductive Fault where
  | fatal (msg : String)
  | panic (msg : String)
  | blocked
  deriving DecidableEq, Repr

/-- A struct literal as in `example/main.go`: the exported fields are given, the
others have their zero value, nothing runs yet. -/
def World.new (PrometheusEndpoint Name : String) (RequestPerSecondFunc : Bool) : World :=
  { PrometheusEndpoint := PrometheusEndpoint
    RequestPerSecondFunc := RequestPerSecondFunc
    Name := Name
    metricSink := none
    counterLock := none
    counter := 0
    counterChan := none
    resetChan := none
    requestsPerSecond := none
    tasks := []
    sinks := 0
    log := []
    clock := 0
    panicked := false
    holding := false }

/-- Record a call. -/
def World.emit (w : World) (e : Event) : World := { w with log := w.log ++ [e] }

/-- A goroutine returns. -/
def World.exit (w : World) (t : Task) : World := { w with tasks := w.tasks.erase t }

/-- An unrecovered panic. -/
def World.crash (w : World) : World := { w with panicked := true }

/-- Time passes. -/
def World.elapse (w : World) (ns : Nat) : World := { w with clock := w.clock + ns }

/-- Samples sent on `requestsPerSecond` so far, oldest first. -/
def World.samples (w : World) : List Int :=
  match w.requestsPerSecond with
  | some c => c.sent
  | none => []

/-! ## The functions of `metrics.go` -/

/-- The method `initialize`, lines 43-66. `log.Fatalf` ends the process (`Fault.fatal`). -/
def initialise (env : Env) (w : World) : Except Fault World :=
  if w.counterChan.isSome then .ok w
  else if env.sinkFails then
    .error (.fatal "metrics: error occured during prometheus sink initialization")
  else
    let w : World := { w with metricSink := some w.sinks, sinks := w.sinks + 1 }
    let named : Except Fault World :=
      if w.Name.utf8ByteSize = 0 then
        match env.hostname with
        | none => .error (.fatal "metrics: unable to determine the hostname, please set name manually")
        | some hostname => .ok { w with Name := hostname }
      else .ok w
    match named with
    | .error e => .error e
    | .ok w =>
      .ok { w with
        counterChan := some (Chan.make 0)
        resetChan := some (Chan.make 0)
        requestsPerSecond := some (Chan.make 1)
        counterLock := some false
        tasks := w.tasks ++ [Task.watchRequestsPerSecond, Task.watchCounter,
                             Task.watchReset, Task.startReset] }

/-- Lines 39-41. -/
def StartMetrics (env : Env) (w : World) : Except Fault World := initialise env w

/-- Calling `StartMetrics` `k` times in a row. -/
def startTimes (env : Env) : Nat → World → Except Fault World
  | 0, w => .ok w
  | k + 1, w =>
    match StartMetrics env w with
    | .ok w1 => startTimes env k w1
    | .error e => .error e

/-- `a.counterLock.Lock()` returning: the mutex exists and is free. -/
def Lock (w : World) : Option World :=
  match w.counterLock with
  | some false => some { w with counterLock := some true }
  | _ => none

/-- `a.counterLock.Unlock()`. -/
def Unlock (w : World) : World := { w with counterLock := some false }

/-- Lines 128-131. Closing a nil or a closed channel panics. -/
def cleanup (w : World) : World :=
  match w.resetChan with
  | none => w.crash
  | some c =>
    if c.closed then w.crash
    else
      let w : World := { w with resetChan := some c.close }
      match w.requestsPerSecond with
      | none => w.crash
      | some d =>
        if d.closed then w.crash
        else { w with requestsPerSecond := some d.close }

/-- One pass of the loop of lines 68-82, `recv` being what the receive of line
71 gave: `none` for `ok == false`, `some current` otherwise. -/
def watchRequestsPerSecond (recv : Option Int) (w : World) : World :=
  match recv with
  | none => w.exit Task.watchRequestsPerSecond
  | some current =>
    let w := w.emit (Event.AddSample [w.Name, "requestPerSecond"] (float32 current))
    let w := w.emit (Event.SetGauge [w.Name, "requestPerSecondCurrent"] (float32 current))
    if w.RequestPerSecondFunc then w.emit (Event.RequestPerSecondFunc current) else w

/-- One pass of the loop of lines 96-109, `ok` being what the receive of line 99
gave. The send of line 104 blocks (`none`) on a nil channel and on a full
buffer, and panics on a closed channel. -/
def watchReset (ok : Bool) (w : World) : Option World :=
  if !ok then some (w.exit Task.watchReset)
  else
    (Lock w).bind fun w =>
      match w.requestsPerSecond with
      | none => none
      | some c =>
        if c.closed then some w.crash
        else if c.cap ≤ c.buffered.length then none
        else
          let w : World := { w with requestsPerSecond := some (c.push w.counter) }
          let w : World := { w with counter := 0 }
          some (Unlock w)

/-- The rest of one pass of the loop of lines 112-126 after the receive of line
115, `ok` being what that receive gave. After lines 120-123 the goroutine is
back at the receive and holds no signal. -/
def watchCounter (ok : Bool) (w : World) : Option World :=
  if !ok then some ((cleanup w).exit Task.watchCounter)
  else
    (Lock w).map fun w =>
      let w : World := { w with counter := wrapInt64 (w.counter + 1) }
      let w := w.emit (Event.IncrCounter [w.Name, "totalRequests"] (float32 1))
      let w := Unlock w
      { w with holding := false }

/-- The constant `time.Second`, in nanoseconds. -/
def second : Nat := 1000000000

/-- Lines 133-135: the send on the unbuffered `resetChan` completes when
`watchReset` receives it, and `watchReset` then runs its case. -/
def reset (w : World) : Except Fault World :=
  match w.resetChan with
  | none => .error .blocked
  | some c =>
    if c.closed then .error (.panic "send on closed channel")
    else if Task.watchReset ∈ w.tasks then
      match watchReset true { w with resetChan := some (c.push ()).pop } with
      | some w1 => .ok w1
      | none => .error .blocked
    else .error .blocked

/-- Lines 137-139: the send on the unbuffered `counterChan`, and nothing else. It
returns as soon as `watchCounter`, waiting at the receive of line 115, has taken
the signal; lines 120-123 run afterwards on the goroutine of `watchCounter`, so
at the return the counter, the log and the mutex are as they were. The send
waits (`blocked`) while `watchCounter` still holds an earlier signal. -/
def increment (w : World) : Except Fault World :=
  match w.counterChan with
  | none => .error .blocked
  | some c =>
    if c.closed then .error (.panic "send on closed channel")
    else if Task.watchCounter ∈ w.tasks ∧ w.holding = false then
      .ok { w with counterChan := some (c.push ()).pop, holding := true }
    else .error .blocked

/-- One pass of the loop of lines 85-92: the timer fires after one second and
`reset()` is called. A panic in this goroutine is not recovered. -/
def startReset (w : World) : Option World :=
  let w := w.elapse second
  match reset w with
  | .ok w1 => some w1
  | .error (.panic _) => some w.crash
  | .error _ => none

/-- `time.Since(start).Nanoseconds()`: a `Duration` is an `int64` and the
difference saturates. -/
def sinceNanoseconds (clock start : Nat) : Int :=
  min ((clock : Int) - (start : Int)) maxInt64

/-- Lines 142-152. The arguments of the deferred `SetGauge` are evaluated when
the `defer` statement runs (line 149); the call itself is made on return. -/
def ServeHTTP (env : Env) (w : World) (r : Request) : Except Fault World :=
  match initialise env w with
  | .error e => .error e
  | .ok w =>
    if 0 < w.PrometheusEndpoint.utf8ByteSize ∧ r.RequestURI = w.PrometheusEndpoint then
      .ok (w.emit (Event.PromhttpServeHTTP r))
    else
      let start := w.clock
      let w := w.elapse env.deferDelay
      let deferred := Event.SetGauge [w.Name, "requestTimeNanoseconds"]
        (float32 (sinceNanoseconds w.clock start))
      match increment w with
      | .error e => .error e
      | .ok w =>
        let w := w.elapse env.incrementDelay
        let w := (w.emit (Event.HandlerServeHTTP r)).elapse (env.handler r)
        .ok (w.emit deferred)

/-! ## The background tasks as a transition system -/

/-- What can happen next: a request goroutine hands a signal to `watchCounter`
and `watchCounter` runs lines 120-123 once (`increment`), the timer of
`startReset` fires (`reset`), `watchRequestsPerSecond` takes a sample
(`deliver`), `counterChan` is closed (`close`), or a goroutine finds its channel
closed and returns (`exit`). -/
inductive Label where
  | increment
  | reset
  | deliver
  | close
  | exit (t : Task)
  deriving DecidableEq, Repr

/-- One transition; `none` when it cannot happen in `w`. In an `increment` step
one signal is handed over and `watchCounter` runs lines 120-123 once: for the
signal just taken or, when it was still holding one, for that one before it
takes the new one. -/
def step (l : Label) (w : World) : Option World :=
  if w.panicked then none
  else
    match l with
    | .increment =>
      if w.holding then (watchCounter true w).bind fun w1 => (increment w1).toOption
      else (increment w).toOption.bind (watchCounter true)
    | .reset => if Task.startReset ∈ w.tasks then startReset w else none
    | .deliver =>
      if Task.watchRequestsPerSecond ∈ w.tasks then
        match w.requestsPerSecond with
        | none => none
        | some c =>
          match c.buffered with
          | [] => none
          | current :: _ =>
            some (watchRequestsPerSecond (some current) { w with requestsPerSecond := some c.pop })
      else none
    | .close =>
      match w.counterChan with
      | none => some w.crash
      | some c => if c.closed then some w.crash else some { w with counterChan := some c.close }
    | .exit Task.watchCounter =>
      if Task.watchCounter ∈ w.tasks ∧ w.holding = false then
        match w.counterChan with
        | some c => if c.closed then watchCounter false w else none
        | none => none
      else none
    | .exit Task.watchReset =>
      if Task.watchReset ∈ w.tasks then
        match w.resetChan with
        | some c => if c.closed then watchReset false w else none
        | none => none
      else none
    | .exit Task.watchRequestsPerSecond =>
      if Task.watchRequestsPerSecond ∈ w.tasks then
        match w.requestsPerSecond with
        | some c =>
          if c.closed ∧ c.buffered = [] then some (watchRequestsPerSecond none w) else none
        | none => none
      else none
    | .exit Task.startReset => none

/-- A sequence of transitions. -/
def run : List Label → World → Option World
  | [], w => some w
  | l :: ls, w => (step l w).bind (run ls)

/-! ## Observations used to state the properties -/

/-- The middleware can take a signal on `counterChan`: nothing has panicked, the
mutex is free, `watchCounter` runs and `counterChan` is open. -/
def World.accepting (w : World) : Prop :=
  w.panicked = false ∧ w.counterLock = some false ∧ Task.watchCounter ∈ w.tasks ∧
    w.counterChan.map (fun c => c.closed) = some false

instance (w : World) : Decidable w.accepting := by
  unfold World.accepting; infer_instance

/-- The timer can hand a reset to `watchReset` and `watchReset` can send its
sample: both goroutines run, `resetChan` and `requestsPerSecond` are open and
the buffer of `requestsPerSecond` has room. -/
def World.resettable (w : World) : Prop :=
  w.panicked = false ∧ w.counterLock = some false ∧ Task.startReset ∈ w.tasks ∧
    Task.watchReset ∈ w.tasks ∧ w.resetChan.map (fun c => c.closed) = some false ∧
    w.requestsPerSecond.map (fun d => (d.closed, decide (d.buffered.length < d.cap)))
      = some (false, true)

instance (w : World) : Decidable w.resettable := by
  unfold World.resettable; infer_instance

/-- Nothing has panicked and the two downstream channels are open. -/
def World.healthy (w : World) : Prop :=
  w.panicked = false ∧ w.resetChan.map (fun c => c.closed) = some false ∧
    w.requestsPerSecond.map (fun d => d.closed) = some false

instance (w : World) : Decidable w.healthy := by
  unfold World.healthy; infer_instance

/-- Samples `watchRequestsPerSecond` has received so far, oldest first. -/
def World.taken (w : World) : List Int :=
  match w.requestsPerSecond with
  | some c => c.sent.take c.recvd
  | none => []

/-- A trace of normal operation: signals, resets and deliveries only. -/
def steady (t : List Label) : Prop :=
  ∀ l ∈ t, l = Label.increment ∨ l = Label.reset ∨ l = Label.deliver

instance (t : List Label) : Decidable (steady t) := by
  unfold steady; infer_instance

/-- Number of increments in each window a reset of the trace closed, oldest
first, and in the window still open, `cur` increments being in the open window
at the start. -/
def tally (cur : Nat) : List Label → List Nat × Nat
  | [] => ([], cur)
  | Label.increment :: t => tally (cur + 1) t
  | Label.reset :: t => (cur :: (tally 0 t).1, (tally 0 t).2)
  | _ :: t => tally cur t

/-- No window of the trace reaches `2^63` increments, `cur` increments being in
the open window at the start. -/
def windowsFit (cur : Nat) : List Label → Bool
  | [] => true
  | Label.increment :: t => decide (cur + 1 < 2 ^ 63) && windowsFit (cur + 1) t
  | Label.reset :: t => windowsFit 0 t
  | _ :: t => windowsFit cur t

/-- Sum of the deltas reported under `{name, "totalRequests"}`. -/
def totalRequests (name : String) (log : List Event) : Int :=
  (log.map fun e =>
    match e with
    | Event.IncrCounter key val => if key = [name, "totalRequests"] then val else 0
    | _ => 0).sum

/-- A send on `counterChan` returns: the goroutine `watchCounter` runs and waits
at its receive of line 115, and `counterChan` is open. -/
def World.listening (w : World) : Prop :=
  Task.watchCounter ∈ w.tasks ∧ w.holding = false ∧
    w.counterChan.map (fun c => c.closed) = some false

instance (w : World) : Decidable w.listening := by
  unfold World.listening; infer_instance

/-- Calls made by the goroutine that serves a request: on the wrapped handler,
on the exporter, and the latency gauge. -/
def isServeEvent : Event → Bool
  | Event.HandlerServeHTTP _ => true
  | Event.PromhttpServeHTTP _ => true
  | Event.SetGauge key _ => decide (key.getLast? = some "requestTimeNanoseconds")
  | _ => false

/-- Calls that carry a rate sample. -/
def isRateEvent : Event → Bool
  | Event.AddSample _ _ => true
  | Event.SetGauge _ _ => true
  | Event.RequestPerSecondFunc _ => true
  | _ => false

/-- The calls one rate sample `v` is expected to cause: the sample, the gauge,
and the callback when there is one. -/
def report (name : String) (callback : Bool) (v : Int) : List Event :=
  [Event.AddSample [name, "requestPerSecond"] (float32 v),
   Event.SetGauge [name, "requestPerSecondCurrent"] (float32 v)]
    ++ (if callback then [Event.RequestPerSecondFunc v] else [])

/-- Every sample received so far has been reported once, in the order received,
nothing else was reported as a rate, and no more samples were received than
sent. -/
def World.reported (w : World) : Prop :=
  w.log.filter isRateEvent = w.taken.flatMap (report w.Name w.RequestPerSecondFunc) ∧
    ∀ c, w.requestsPerSecond = some c → c.recvd ≤ c.sent.length

/-! ## Concrete inputs -/

/-- Surroundings in which the sink is built, the host is called `host`, the
`defer` statement is reached 80 ns after `time.Now()`, the signal is handed
over in 20 ns and the wrapped handler runs for one millisecond. -/
def env0 : Env :=
  { sinkFails := false
    hostname := some "host"
    deferDelay := 80
    incrementDelay := 20
    handler := fun _ => 1000000 }

/-- The middleware of `example/main.go` after `StartMetrics` in `env0`. -/
def started : World :=
  { PrometheusEndpoint := "/metric"
    RequestPerSecondFunc := false
    Name := "host"
    metricSink := some 0
    counterLock := some false
    counter := 0
    counterChan := some (Chan.make 0)
    resetChan := some (Chan.make 0)
    requestsPerSecond := some (Chan.make 1)
    tasks := [Task.watchRequestsPerSecond, Task.watchCounter, Task.watchReset, Task.startReset]
    sinks := 1
    log := []
    clock := 0
    panicked := false
    holding := false }

/-- Two signals, a reset, its delivery, a third signal and a second reset. -/
def twoWindows : List Label :=
  [Label.increment, Label.increment, Label.reset, Label.deliver, Label.increment, Label.reset]

/-- Where `twoWindows` leaves `started`. -/
def afterTwoWindows : World :=
  { started with
    counterChan := some { cap := 0, sent := [(), (), ()], recvd := 3, closed := false }
    resetChan := some { cap := 0, sent := [(), ()], recvd := 2, closed := false }
    requestsPerSecond := some { cap := 1, sent := [2, 1], recvd := 1, closed := false }
    clock := 2 * second
    log := [Event.IncrCounter ["host", "totalRequests"] 1,
            Event.IncrCounter ["host", "totalRequests"] 1,
            Event.AddSample ["host", "requestPerSecond"] 2,
            Event.SetGauge ["host", "requestPerSecondCurrent"] 2,
            Event.IncrCounter ["host", "totalRequests"] 1] }

/-- A middleware named `web` with a rate callback, after `StartMetrics` in `env0`. -/
def observed : World :=
  { started with RequestPerSecondFunc := true, Name := "web" }

/-- Where `twoWindows` followed by a second delivery leaves `observed`. -/
def afterDeliveries : World :=
  { observed with
    counterChan := some { cap := 0, sent := [(), (), ()], recvd := 3, closed := false }
    resetChan := some { cap := 0, sent := [(), ()], recvd := 2, closed := false }
    requestsPerSecond := some { cap := 1, sent := [2, 1], recvd := 2, closed := false }
    clock := 2 * second
    log := [Event.IncrCounter ["web", "totalRequests"] 1,
            Event.IncrCounter ["web", "totalRequests"] 1,
            Event.AddSample ["web", "requestPerSecond"] 2,
            Event.SetGauge ["web", "requestPerSecondCurrent"] 2,
            Event.RequestPerSecondFunc 2,
            Event.IncrCounter ["web", "totalRequests"] 1,
            Event.AddSample ["web", "requestPerSecond"] 1,
            Event.SetGauge ["web", "requestPerSecondCurrent"] 1,
            Event.RequestPerSecondFunc 1] }

/-- The request `GET /metric?x=1`. -/
def scrapeWithQuery : Request :=
  { RequestURI := "/metric?x=1", URL := { Path := "/metric", RawQuery := "x=1" } }

/-- The request `GET /work`. -/
def workRequest : Request :=
  { RequestURI := "/work", URL := { Path := "/work", RawQuery := "" } }

/-- The request `GET /metric`. -/
def scrapeRequest : Request :=
  { RequestURI := "/metric", URL := { Path := "/metric", RawQuery := "" } }

/-! ## Arithmetic and strings -/

theorem wrapInt64_of_range {x : Int} (h1 : -(2 ^ 63) ≤ x) (h2 : x < 2 ^ 63) :
    wrapInt64 x = x := by
  unfold wrapInt64; omega

theorem wrapInt64_add (x y : Int) : wrapInt64 (wrapInt64 x + y) = wrapInt64 (x + y) := by
  unfold wrapInt64; omega

theorem float32_one : float32 1 = 1 := by decide

theorem float32_exact {x : Int} (h : x.natAbs < 2 ^ 24) : float32 x = x := by
  have hu : ulp32 x.natAbs x.natAbs = 1 := by
    cases hm : x.natAbs with
    | zero => rfl
    | succ k =>
      rw [hm] at h
      simp only [ulp32]
      rw [if_pos h]
  unfold float32
  simp only [hu, Nat.div_one, Nat.mod_one, Nat.mul_zero, Nat.mul_one]
  rw [if_neg (by omega)]
  exact Int.sign_mul_natAbs x

theorem utf8ByteSize_pos {s : String} (h : s ≠ "") : 0 < s.utf8ByteSize := by
  obtain ⟨l⟩ := s
  cases l with
  | nil => exact absurd rfl h
  | cons c cs =>
    have : 0 < c.utf8Size := Char.utf8Size_pos c
    simp only [String.utf8ByteSize, String.utf8ByteSize.go]
    omega

theorem initialise_new : initialise env0 (World.new "/metric" "" false) = .ok started := by
  rfl

/-! ## What each transition does -/

theorem step_increment_iff {w s : World} :
    step .increment w = some s ↔
      w.panicked = false ∧ w.counterLock = some false ∧ Task.watchCounter ∈ w.tasks ∧
      ∃ c, w.counterChan = some c ∧ c.closed = false ∧
        s = { w with
          counterChan := some (c.push ()).pop
          counterLock := some false
          counter := wrapInt64 (w.counter + 1)
          log := w.log ++ [Event.IncrCounter [w.Name, "totalRequests"] (float32 1)] } := by
  obtain ⟨⟨pe, cb, name, sink, lock, counter, cc, rc, rps⟩, tasks, sinks, log, clock, panicked, holding⟩ := w
  rcases panicked with _ | _ <;> rcases holding with _ | _ <;>
    rcases cc with _ | ⟨cap, sent, recvd, _ | _⟩ <;>
    rcases lock with _ | _ | _ <;> by_cases ht : Task.watchCounter ∈ tasks <;>
    simp [step, increment, watchCounter, Lock, Unlock, World.emit, Except.toOption, ht]
  all_goals exact eq_comm

theorem step_reset_iff {w s : World} :
    step .reset w = some s ↔
      w.panicked = false ∧ Task.startReset ∈ w.tasks ∧
      ∃ c, w.resetChan = some c ∧
        ((c.closed = true ∧ s = (w.elapse second).crash) ∨
         (c.closed = false ∧ Task.watchReset ∈ w.tasks ∧ w.counterLock = some false ∧
          ∃ d, w.requestsPerSecond = some d ∧
            ((d.closed = true ∧
               s = { w with resetChan := some (c.push ()).pop, counterLock := some true,
                            clock := w.clock + second, panicked := true }) ∨
             (d.closed = false ∧ d.buffered.length < d.cap ∧
               s = { w with
                 resetChan := some (c.push ()).pop
                 counterLock := some false
                 requestsPerSecond := some (d.push w.counter)
                 counter := 0
                 clock := w.clock + second })))) := by
  obtain ⟨⟨pe, cb, name, sink, lock, counter, cc, rc, rps⟩, tasks, sinks, log, clock, panicked, holding⟩ := w
  rcases panicked with _ | _ <;> rcases rc with _ | ⟨cap, sent, recvd, _ | _⟩ <;>
    rcases lock with _ | _ | _ <;> by_cases ht : Task.watchReset ∈ tasks <;>
    by_cases hs : Task.startReset ∈ tasks <;>
    rcases rps with _ | ⟨cap2, sent2, recvd2, _ | _⟩ <;>
    simp [step, startReset, reset, watchReset, Lock, Unlock, World.crash, World.elapse, ht, hs]
  all_goals first
    | exact eq_comm
    | (by_cases hb : cap2 ≤ (Chan.buffered (⟨cap2, sent2, recvd2, false⟩ : Chan Int)).length
       · simp [hb]
       · simp [hb, Nat.lt_of_not_le hb]
         exact eq_comm)

theorem watchRequestsPerSecond_some (current : Int) (w : World) :
    watchRequestsPerSecond (some current) w =
      { w with log := w.log ++ report w.Name w.RequestPerSecondFunc current } := by
  cases h : w.RequestPerSecondFunc <;>
    simp [watchRequestsPerSecond, World.emit, report, h]

theorem step_deliver_iff {w s : World} :
    step .deliver w = some s ↔
      w.panicked = false ∧ Task.watchRequestsPerSecond ∈ w.tasks ∧
      ∃ c current rest, w.requestsPerSecond = some c ∧ c.buffered = current :: rest ∧
        s = { w with
          requestsPerSecond := some c.pop
          log := w.log ++ report w.Name w.RequestPerSecondFunc current } := by
  obtain ⟨⟨pe, cb, name, sink, lock, counter, cc, rc, rps⟩, tasks, sinks, log, clock, panicked, holding⟩ := w
  rcases panicked with _ | _ <;> rcases rps with _ | c <;>
    by_cases ht : Task.watchRequestsPerSecond ∈ tasks <;>
    simp [step, ht, watchRequestsPerSecond_some]
  rcases hb : c.buffered with _ | ⟨v, rest⟩ <;> simp
  exact eq_comm

/-- Closing `counterChan` and the return of a goroutine leave the counter, the
log, the name, the callback and the samples sent and received as they are. -/
theorem step_quiet {l : Label} {w s : World} (hl : l = .close ∨ ∃ t, l = .exit t)
    (h : step l w = some s) :
    s.counter = w.counter ∧ s.log = w.log ∧ s.Name = w.Name ∧
      s.RequestPerSecondFunc = w.RequestPerSecondFunc ∧
      s.requestsPerSecond.map (fun c => (c.sent, c.recvd)) =
        w.requestsPerSecond.map (fun c => (c.sent, c.recvd)) := by
  obtain ⟨⟨pe, cb, name, sink, lock, counter, cc, rc, rps⟩, tasks, sinks, log, clock, panicked, holding⟩ := w
  rcases hl with rfl | ⟨t, rfl⟩
  · rcases panicked with _ | _ <;> rcases cc with _ | ⟨cap, sent, recvd, _ | _⟩ <;>
      simp [step, World.crash] at h <;> subst h <;> simp
  · rcases t with _ | _ | _ | _
    · rcases panicked with _ | _ <;> rcases rps with _ | ⟨cap, sent, recvd, _ | _⟩ <;>
        by_cases ht : Task.watchRequestsPerSecond ∈ tasks <;>
        simp [step, ht, watchRequestsPerSecond, World.exit] at h
      obtain ⟨_, rfl⟩ := h
      simp
    · rcases panicked with _ | _ <;> rcases holding with _ | _ <;>
        rcases cc with _ | ⟨cap, sent, recvd, _ | _⟩ <;>
        by_cases ht : Task.watchCounter ∈ tasks <;>
        simp [step, ht, watchCounter] at h
      subst h
      rcases rc with _ | ⟨cap1, sent1, recvd1, _ | _⟩ <;>
        rcases rps with _ | ⟨cap2, sent2, recvd2, _ | _⟩ <;>
        simp [cleanup, World.exit, World.crash, Chan.close]
    · rcases panicked with _ | _ <;> rcases rc with _ | ⟨cap, sent, recvd, _ | _⟩ <;>
        by_cases ht : Task.watchReset ∈ tasks <;>
        simp [step, ht, watchReset, World.exit] at h
      subst h
      simp
    · rcases panicked with _ | _ <;> simp [step] at h

/-! ## Traces -/

theorem run_append (a b : List Label) (w : World) :
    run (a ++ b) w = (run a w).bind (run b) := by
  induction a generalizing w with
  | nil => simp [run]
  | cons l a ih =>
    simp only [List.cons_append, run]
    cases step l w with
    | none => simp
    | some w1 => simpa using ih w1

theorem healthy_step {l : Label} {w s : World} (hw : w.healthy)
    (hl : l = .increment ∨ l = .reset ∨ l = .deliver) (h : step l w = some s) : s.healthy := by
  obtain ⟨hp, hr, hq⟩ := hw
  rcases hl with rfl | rfl | rfl
  · obtain ⟨-, -, -, c, -, -, rfl⟩ := step_increment_iff.mp h
    exact ⟨hp, hr, hq⟩
  · obtain ⟨-, -, c, hc, hcase⟩ := step_reset_iff.mp h
    rw [hc] at hr
    simp at hr
    rcases hcase with ⟨hcl, -⟩ | ⟨-, -, -, d, hd, hcase⟩
    · simp [hr] at hcl
    · rw [hd] at hq
      simp at hq
      rcases hcase with ⟨hdl, -⟩ | ⟨-, -, rfl⟩
      · simp [hq] at hdl
      · exact ⟨hp, by simpa [Chan.push, Chan.pop] using hr, by simpa [Chan.push] using hq⟩
  · obtain ⟨-, -, c, v, rest, hc, -, rfl⟩ := step_deliver_iff.mp h
    rw [hc] at hq
    exact ⟨hp, hr, by simpa [Chan.pop] using hq⟩

/-- Effect of a transition of normal operation on the counter and on the samples sent. -/
theorem step_counter_samples {l : Label} {w s : World} (hw : w.healthy) (h : step l w = some s) :
    (l = .increment → s.counter = wrapInt64 (w.counter + 1) ∧ s.samples = w.samples) ∧
    (l = .reset → s.counter = 0 ∧ s.samples = w.samples ++ [w.counter]) ∧
    (l = .deliver → s.counter = w.counter ∧ s.samples = w.samples) := by
  obtain ⟨hp, hr, hq⟩ := hw
  refine ⟨?_, ?_, ?_⟩ <;> rintro rfl
  · obtain ⟨-, -, -, c, -, -, rfl⟩ := step_increment_iff.mp h
    exact ⟨rfl, rfl⟩
  · obtain ⟨-, -, c, hc, hcase⟩ := step_reset_iff.mp h
    rw [hc] at hr
    simp at hr
    rcases hcase with ⟨hcl, -⟩ | ⟨-, -, -, d, hd, hcase⟩
    · simp [hr] at hcl
    · rw [hd] at hq
      simp at hq
      rcases hcase with ⟨hdl, -⟩ | ⟨-, -, rfl⟩
      · simp [hq] at hdl
      · simp [World.samples, hd, Chan.push]
  · obtain ⟨-, -, c, v, rest, hc, -, rfl⟩ := step_deliver_iff.mp h
    simp [World.samples, hc, Chan.pop]

theorem tally_sum (cur : Nat) (t : List Label) :
    (tally cur t).1.sum + (tally cur t).2 = cur + t.count Label.increment := by
  induction t generalizing cur with
  | nil => simp [tally]
  | cons l t ih =>
    cases l with
    | increment => simp [tally, ih]; omega
    | reset => have := ih 0; simp [tally]; omega
    | deliver => simp [tally, ih]
    | close => simp [tally, ih]
    | exit k => simp [tally, ih]

/-- Accounting along a trace of normal operation in which no window overflows. -/
theorem run_account (t : List Label) (cur : Nat) (w s : World) (hw : w.healthy)
    (ht : steady t) (hc : w.counter = cur) (hfit : windowsFit cur t = true)
    (h : run t w = some s) :
    s.samples = w.samples ++ (tally cur t).1.map Int.ofNat ∧ s.counter = (tally cur t).2 ∧
      s.healthy := by
  induction t generalizing cur w with
  | nil =>
    simp [run] at h
    subst h
    simp [tally, hc, hw]
  | cons l t ih =>
    simp only [run] at h
    cases hs : step l w with
    | none => simp [hs] at h
    | some w1 =>
      rw [hs] at h
      simp at h
      have hl := ht l (List.mem_cons_self _ _)
      have ht1 : steady t := fun x hx => ht x (List.mem_cons_of_mem _ hx)
      have hw1 := healthy_step hw hl hs
      obtain ⟨hi, hr, hd⟩ := step_counter_samples hw hs
      rcases hl with rfl | rfl | rfl
      · obtain ⟨hcnt, hsm⟩ := hi rfl
        simp only [windowsFit, Bool.and_eq_true, decide_eq_true_eq] at hfit
        have hc1 : w1.counter = ((cur + 1 : Nat) : Int) := by
          rw [hcnt, hc]
          have : ((cur : Int) + 1) < 2 ^ 63 := by exact_mod_cast hfit.1
          rw [wrapInt64_of_range (by omega) this]
          push_cast; ring
        have := ih (cur + 1) w1 hw1 ht1 hc1 hfit.2 h
        simpa [tally, hsm] using this
      · obtain ⟨hcnt, hsm⟩ := hr rfl
        simp only [windowsFit] at hfit
        have := ih 0 w1 hw1 ht1 (by simpa using hcnt) hfit h
        simp [tally, hsm, hc, this]
      · obtain ⟨hcnt, hsm⟩ := hd rfl
        simp only [windowsFit] at hfit
        have := ih cur w1 hw1 ht1 (hcnt.trans hc) hfit h
        simpa [tally, hsm] using this

theorem initialise_cases {env : Env} {w w1 : World} (h : initialise env w = .ok w1) :
    (w.counterChan.isSome = true ∧ w1 = w) ∨
    (w.counterChan = none ∧ env.sinkFails = false ∧
      ∃ name, (if w.Name.utf8ByteSize = 0 then env.hostname = some name else name = w.Name) ∧
        w1 = { w with
          metricSink := some w.sinks
          sinks := w.sinks + 1
          Name := name
          counterChan := some (Chan.make 0)
          resetChan := some (Chan.make 0)
          requestsPerSecond := some (Chan.make 1)
          counterLock := some false
          tasks := w.tasks ++ [Task.watchRequestsPerSecond, Task.watchCounter,
                               Task.watchReset, Task.startReset] }) := by
  unfold initialise at h
  by_cases hc : w.counterChan.isSome = true
  · simp [hc] at h
    exact Or.inl ⟨hc, h.symm⟩
  · right
    have hn : w.counterChan = none := by simpa using hc
    simp only [hc] at h
    by_cases hs : env.sinkFails = true
    · simp [hs] at h
    · simp only [hs] at h
      by_cases hz : w.Name.utf8ByteSize = 0
      · simp only [hz] at h
        cases hh : env.hostname with
        | none => simp [hh] at h
        | some hostname =>
          simp [hh] at h
          exact ⟨hn, by simpa using hs, hostname, by simp [hz], h.symm⟩
      · simp [hz] at h
        exact ⟨hn, by simpa using hs, w.Name, by simp [hz], h.symm⟩

theorem initialise_new_spec {env : Env} {pe name : String} {cb : Bool} {w : World}
    (h : initialise env (World.new pe name cb) = .ok w) :
    w.counter = 0 ∧ w.samples = [] ∧ w.taken = [] ∧ w.log = [] ∧ w.healthy ∧ w.accepting ∧
      w.resettable ∧ w.RequestPerSecondFunc = cb ∧ w.PrometheusEndpoint = pe ∧
      w.tasks = [Task.watchRequestsPerSecond, Task.watchCounter, Task.watchReset,
                 Task.startReset] ∧ w.sinks = 1 := by
  rcases initialise_cases h with ⟨hc, -⟩ | ⟨-, -, nm, -, rfl⟩
  · simp [World.new] at hc
  · simp [World.new, World.samples, World.taken, World.healthy, World.accepting,
      World.resettable, Chan.make, Chan.buffered]

theorem step_increment_of_accepting {w : World} (ha : w.accepting) :
    ∃ s, step .increment w = some s ∧ s.counter = wrapInt64 (w.counter + 1) ∧
      s.samples = w.samples ∧
      s.log = w.log ++ [Event.IncrCounter [w.Name, "totalRequests"] (float32 1)] ∧
      s.Name = w.Name ∧ s.accepting ∧ (w.resettable → s.resettable) ∧
      s.counterChan.map (fun c => c.sent.length) =
        w.counterChan.map (fun c => c.sent.length + 1) ∧
      s.clock = w.clock ∧ s.tasks = w.tasks ∧ s.sinks = w.sinks := by
  obtain ⟨hp, hl, ht, hc⟩ := ha
  cases hcc : w.counterChan with
  | none => simp [hcc] at hc
  | some c =>
    rw [hcc] at hc
    simp at hc
    refine ⟨_, step_increment_iff.mpr ⟨hp, hl, ht, c, hcc, hc, rfl⟩, rfl, rfl, rfl, rfl, ?_, ?_, ?_,
      rfl, rfl, rfl⟩
    · exact ⟨hp, rfl, ht, by simp [Chan.push, Chan.pop, hc]⟩
    · rintro ⟨h1, h2, h3, h4, h5, h6⟩
      exact ⟨h1, rfl, h3, h4, h5, h6⟩
    · simp [Chan.push, Chan.pop]

/-- Signals taken one after the other: the counter wraps, one `totalRequests`
delta is reported per signal, nothing else moves. -/
theorem run_increments (n : Nat) (w : World) (ha : w.accepting)
    (hr : wrapInt64 w.counter = w.counter) :
    ∃ s, run (List.replicate n Label.increment) w = some s ∧
      s.counter = wrapInt64 (w.counter + n) ∧ s.samples = w.samples ∧
      s.log = w.log ++ List.replicate n (Event.IncrCounter [w.Name, "totalRequests"] (float32 1)) ∧
      s.Name = w.Name ∧ s.accepting ∧ (w.resettable → s.resettable) ∧
      s.counterChan.map (fun c => c.sent.length) =
        w.counterChan.map (fun c => c.sent.length + n) := by
  induction n generalizing w with
  | zero => exact ⟨w, rfl, by simpa using hr.symm, rfl, by simp, rfl, ha, id, by simp⟩
  | succ n ih =>
    obtain ⟨w1, hs, hc1, hs1, hl1, hn1, ha1, hr1, hk1, -⟩ := step_increment_of_accepting ha
    have hw1 : wrapInt64 w1.counter = w1.counter := by
      rw [hc1]; unfold wrapInt64; omega
    obtain ⟨s, hrun, hc, hsm, hl, hn, has, hrs, hk⟩ := ih w1 ha1 hw1
    refine ⟨s, ?_, ?_, ?_, ?_, ?_, has, fun h => hrs (hr1 h), ?_⟩
    · simp [List.replicate_succ, run, hs, hrun]
    · rw [hc, hc1, wrapInt64_add]; push_cast; ring_nf
    · rw [hsm, hs1]
    · rw [hl, hl1, hn1, List.replicate_succ]; simp
    · rw [hn, hn1]
    · rw [hk]
      cases h1 : w1.counterChan <;> cases h0 : w.counterChan <;> simp [h1, h0] at hk1 ⊢
      omega

theorem step_reset_of_resettable {w : World} (hr : w.resettable) :
    ∃ s, step .reset w = some s ∧ s.counter = 0 ∧ s.samples = w.samples ++ [w.counter] ∧
      s.log = w.log ∧ s.panicked = false := by
  obtain ⟨hp, hl, ht1, ht2, hc, hq⟩ := hr
  cases hrc : w.resetChan with
  | none => simp [hrc] at hc
  | some c =>
    cases hrq : w.requestsPerSecond with
    | none => simp [hrq] at hq
    | some d =>
      rw [hrc] at hc
      rw [hrq] at hq
      simp at hc hq
      refine ⟨_, step_reset_iff.mpr ⟨hp, ht1, c, hrc,
        Or.inr ⟨hc, ht2, hl, d, hrq, Or.inr ⟨hq.1, hq.2, rfl⟩⟩⟩, rfl, ?_, rfl, hp⟩
      simp [World.samples, hrq, Chan.push]

/-- Effect of any transition on the log, the name and the callback. -/
theorem step_log {l : Label} {w s : World} (h : step l w = some s) :
    s.Name = w.Name ∧ s.RequestPerSecondFunc = w.RequestPerSecondFunc ∧
    (l = .increment →
      s.log = w.log ++ [Event.IncrCounter [w.Name, "totalRequests"] (float32 1)]) ∧
    (l = .deliver → ∃ c current rest, w.requestsPerSecond = some c ∧
      c.buffered = current :: rest ∧ s.requestsPerSecond = some c.pop ∧
      s.log = w.log ++ report w.Name w.RequestPerSecondFunc current) ∧
    (l ≠ .increment → l ≠ .deliver → s.log = w.log) := by
  cases l with
  | increment =>
    obtain ⟨-, -, -, c, -, -, rfl⟩ := step_increment_iff.mp h
    simp
  | reset =>
    obtain ⟨-, -, c, -, hcase⟩ := step_reset_iff.mp h
    rcases hcase with ⟨-, rfl⟩ | ⟨-, -, -, d, -, ⟨-, rfl⟩ | ⟨-, -, rfl⟩⟩ <;> simp [World.crash, World.elapse]
  | deliver =>
    obtain ⟨-, -, c, v, rest, hc, hb, rfl⟩ := step_deliver_iff.mp h
    refine ⟨rfl, rfl, by simp, fun _ => ⟨c, v, rest, hc, hb, rfl, rfl⟩, by simp⟩
  | close =>
    obtain ⟨-, h2, h3, h4, -⟩ := step_quiet (Or.inl rfl) h
    simp [h2, h3, h4]
  | exit t =>
    obtain ⟨-, h2, h3, h4, -⟩ := step_quiet (Or.inr ⟨t, rfl⟩) h
    simp [h2, h3, h4]

theorem totalRequests_append (name : String) (a b : List Event) :
    totalRequests name (a ++ b) = totalRequests name a + totalRequests name b := by
  simp [totalRequests]

theorem totalRequests_report (name n : String) (cb : Bool) (v : Int) :
    totalRequests name (report n cb v) = 0 := by
  cases cb <;> simp [totalRequests, report]

/-- Every signal taken adds one to the reported total, nothing else changes it. -/
theorem run_totalRequests (t : List Label) (w s : World) (h : run t w = some s) :
    s.Name = w.Name ∧
      totalRequests s.Name s.log = totalRequests w.Name w.log + t.count Label.increment := by
  induction t generalizing w with
  | nil =>
    simp [run] at h
    subst h
    simp
  | cons l t ih =>
    simp only [run] at h
    cases hs : step l w with
    | none => simp [hs] at h
    | some w1 =>
      rw [hs] at h
      simp at h
      obtain ⟨hn, htot⟩ := ih w1 h
      obtain ⟨hn1, -, hi, hd, ho⟩ := step_log hs
      refine ⟨hn.trans hn1, ?_⟩
      rw [htot, hn1]
      cases l with
      | increment =>
        rw [hi rfl, totalRequests_append]
        simp [totalRequests, float32_one]
        ring
      | deliver =>
        obtain ⟨c, v, rest, -, -, -, hlog⟩ := hd rfl
        rw [hlog, totalRequests_append, totalRequests_report]
        simp
      | reset => rw [ho (by simp) (by simp)]; simp
      | close => rw [ho (by simp) (by simp)]; simp
      | exit k => rw [ho (by simp) (by simp)]; simp

theorem filter_report (name : String) (cb : Bool) (v : Int) :
    (report name cb v).filter isRateEvent = report name cb v := by
  cases cb <;> simp [report, isRateEvent]

theorem take_succ_of_drop {α : Type} {l : List α} {n : Nat} {v : α} {rest : List α}
    (h : l.drop n = v :: rest) : n < l.length ∧ l.take (n + 1) = l.take n ++ [v] := by
  have hn : n < l.length := by
    by_contra hge
    rw [List.drop_of_length_le (by omega)] at h
    cases h
  refine ⟨hn, ?_⟩
  have hv : l[n] = v := by
    have := List.drop_eq_getElem_cons hn
    rw [h] at this
    injection this with h1 _
    exact h1.symm
  rw [List.take_succ, List.getElem?_eq_getElem hn, hv]
  rfl

theorem reported_of_same {w s : World} (hw : w.reported) (h2 : s.log = w.log)
    (h3 : s.Name = w.Name) (h4 : s.RequestPerSecondFunc = w.RequestPerSecondFunc)
    (h5 : s.requestsPerSecond.map (fun c => (c.sent, c.recvd)) =
      w.requestsPerSecond.map (fun c => (c.sent, c.recvd))) : s.reported := by
  obtain ⟨hlog, hle⟩ := hw
  cases hs : s.requestsPerSecond with
  | none =>
    cases hq : w.requestsPerSecond with
    | none =>
      refine ⟨?_, by simp [hs]⟩
      simpa [World.taken, hs, hq, h2, h3, h4] using hlog
    | some d => simp [hs, hq] at h5
  | some c =>
    cases hq : w.requestsPerSecond with
    | none => simp [hs, hq] at h5
    | some d =>
      simp [hs, hq] at h5
      constructor
      · simpa [World.taken, hs, hq, h2, h3, h4, h5.1, h5.2] using hlog
      · intro c' hc'
        rw [hs] at hc'
        cases hc'
        rw [h5.1, h5.2]
        exact hle d hq

theorem step_reported {l : Label} {w s : World} (hw : w.reported) (h : step l w = some s) :
    s.reported := by
  obtain ⟨hlog, hle⟩ := hw
  cases l with
  | increment =>
    obtain ⟨-, -, -, c, -, -, rfl⟩ := step_increment_iff.mp h
    refine ⟨?_, hle⟩
    simpa [World.taken, isRateEvent] using hlog
  | reset =>
    obtain ⟨-, -, c, -, hcase⟩ := step_reset_iff.mp h
    rcases hcase with ⟨-, rfl⟩ | ⟨-, -, -, d, hd, ⟨-, rfl⟩ | ⟨-, -, rfl⟩⟩
    · exact ⟨hlog, hle⟩
    · exact ⟨hlog, hle⟩
    · have hdl := hle d hd
      constructor
      · simpa [World.taken, hd, Chan.push, List.take_append_of_le_length hdl] using hlog
      · intro c' hc'
        simp at hc'
        subst hc'
        simp [Chan.push]
        omega
  | deliver =>
    obtain ⟨-, -, c, v, rest, hc, hb, rfl⟩ := step_deliver_iff.mp h
    obtain ⟨hn, htake⟩ := take_succ_of_drop hb
    constructor
    · simp [World.taken, hc] at hlog
      simp [World.taken, Chan.pop, htake, hlog, filter_report]
    · intro c' hc'
      simp at hc'
      subst hc'
      simpa [Chan.pop] using hn
  | close =>
    obtain ⟨-, h2, h3, h4, h5⟩ := step_quiet (Or.inl rfl) h
    exact reported_of_same ⟨hlog, hle⟩ h2 h3 h4 h5
  | exit t =>
    obtain ⟨-, h2, h3, h4, h5⟩ := step_quiet (Or.inr ⟨t, rfl⟩) h
    exact reported_of_same ⟨hlog, hle⟩ h2 h3 h4 h5

theorem run_reported (t : List Label) (w s : World) (hw : w.reported) (h : run t w = some s) :
    s.reported := by
  induction t generalizing w with
  | nil =>
    simp [run] at h
    subst h
    exact hw
  | cons l t ih =>
    simp only [run] at h
    cases hs : step l w with
    | none => simp [hs] at h
    | some w1 =>
      rw [hs] at h
      exact ih w1 (step_reported hw hs) (by simpa using h)

/-! ## Serving a request -/

theorem initialise_endpoint {env : Env} {w w1 : World} (h : initialise env w = .ok w1) :
    w1.PrometheusEndpoint = w.PrometheusEndpoint := by
  rcases initialise_cases h with ⟨-, rfl⟩ | ⟨-, -, nm, -, rfl⟩ <;> rfl

/-- The send of `increment()` hands the signal over and changes nothing else. -/
theorem increment_of_listening {w : World} (hl : w.listening) :
    ∃ c, w.counterChan = some c ∧
      increment w = .ok { w with counterChan := some (c.push ()).pop, holding := true } := by
  obtain ⟨ht, hh, hc⟩ := hl
  cases hcc : w.counterChan with
  | none => simp [hcc] at hc
  | some c =>
    rw [hcc] at hc
    simp at hc
    exact ⟨c, rfl, by simp [increment, hcc, hc, ht, hh]⟩

theorem ServeHTTP_scrape {env : Env} {w w1 : World} {r : Request}
    (hinit : initialise env w = .ok w1) (hlen : 0 < w1.PrometheusEndpoint.utf8ByteSize)
    (huri : r.RequestURI = w1.PrometheusEndpoint) :
    ServeHTTP env w r = .ok (w1.emit (Event.PromhttpServeHTTP r)) := by
  simp [ServeHTTP, hinit, hlen, huri]

/-- A request that is not a scrape: the state in which `ServeHTTP` returns. The
signal is with `watchCounter`, whose case for it is still to run. -/
theorem ServeHTTP_other {env : Env} {w w1 : World} {r : Request}
    (hinit : initialise env w = .ok w1) (hl : w1.listening)
    (hno : ¬ (0 < w1.PrometheusEndpoint.utf8ByteSize ∧ r.RequestURI = w1.PrometheusEndpoint)) :
    ∃ c, w1.counterChan = some c ∧
      ServeHTTP env w r = .ok { w1 with
        counterChan := some (c.push ()).pop
        holding := true
        clock := w1.clock + env.deferDelay + env.incrementDelay + env.handler r
        log := w1.log ++
          [Event.HandlerServeHTTP r,
           Event.SetGauge [w1.Name, "requestTimeNanoseconds"]
             (float32 (sinceNanoseconds (w1.clock + env.deferDelay) w1.clock))] } := by
  have hl2 : (w1.elapse env.deferDelay).listening := hl
  obtain ⟨c, hc, hi⟩ := increment_of_listening hl2
  refine ⟨c, hc, ?_⟩
  simp only [ServeHTTP, hinit, hno, if_false, hi]
  simp [World.emit, World.elapse]

/-- Lines 120-123 with the mutex free. -/
theorem watchCounter_true {w : World} (h : w.counterLock = some false) :
    watchCounter true w = some { w with
      counter := wrapInt64 (w.counter + 1)
      log := w.log ++ [Event.IncrCounter [w.Name, "totalRequests"] 1]
      counterLock := some false
      holding := false } := by
  simp [watchCounter, Lock, Unlock, World.emit, h, float32_one]

/-- What `ServeHTTP` does for a request that is not a scrape, whenever the case
of `watchCounter` runs: of the calls of a serving goroutine it makes exactly the
call of the wrapped handler and then the gauge, it hands one signal to
`counterChan`, and the case `watchCounter` runs for that signal adds one to the
counter and reports one `totalRequests` increment, after which `watchCounter`
waits for the next signal. -/
theorem ServeHTTP_served {env : Env} {w w1 : World} {r : Request}
    (hinit : initialise env w = .ok w1) (hl : w1.listening)
    (hno : ¬ (0 < w1.PrometheusEndpoint.utf8ByteSize ∧ r.RequestURI = w1.PrometheusEndpoint)) :
    ∃ w2, ServeHTTP env w r = .ok w2 ∧
      w2.log.filter isServeEvent = w1.log.filter isServeEvent ++
        [Event.HandlerServeHTTP r,
         Event.SetGauge [w1.Name, "requestTimeNanoseconds"]
           (float32 (sinceNanoseconds (w1.clock + env.deferDelay) w1.clock))] ∧
      w2.counterChan.map (fun c => c.sent.length) =
        w1.counterChan.map (fun c => c.sent.length + 1) ∧
      w2.holding = true ∧
      (w2.counterLock = some false →
        ∃ w3, watchCounter true w2 = some w3 ∧ w3.listening ∧
          w3.counter = wrapInt64 (w2.counter + 1) ∧
          w3.log = w2.log ++ [Event.IncrCounter [w1.Name, "totalRequests"] 1]) := by
  obtain ⟨c, hc, hs⟩ := ServeHTTP_other hinit hl hno
  refine ⟨_, hs, ?_, ?_, rfl, ?_⟩
  · simp [isServeEvent]
  · simp [hc, Chan.push, Chan.pop]
  · intro hlock
    obtain ⟨ht, -, hcl⟩ := hl
    rw [hc] at hcl
    simp at hcl
    exact ⟨_, watchCounter_true hlock, ⟨ht, rfl, by simp [Chan.push, Chan.pop, hcl]⟩, rfl, rfl⟩

/-- A middleware that is healthy and takes signals stays so under the steps of
normal operation. -/
theorem accepting_step {l : Label} {w s : World} (hh : w.healthy) (ha : w.accepting)
    (hl : l = .increment ∨ l = .reset ∨ l = .deliver) (h : step l w = some s) :
    s.accepting := by
  have hs := healthy_step hh hl h
  rcases hl with rfl | rfl | rfl
  · obtain ⟨s1, h1, -, -, -, -, hacc, -⟩ := step_increment_of_accepting ha
    rw [h1] at h
    cases h
    exact hacc
  · obtain ⟨-, -, c, -, hcase⟩ := step_reset_iff.mp h
    obtain ⟨hp, -, ht, hc⟩ := ha
    rcases hcase with ⟨-, rfl⟩ | ⟨-, -, -, d, -, ⟨-, rfl⟩ | ⟨-, -, rfl⟩⟩
    · exact absurd hs.1 (by simp [World.crash, World.elapse])
    · exact absurd hs.1 (by simp)
    · exact ⟨hp, rfl, ht, hc⟩
  · obtain ⟨-, -, c, x, rest, -, -, rfl⟩ := step_deliver_iff.mp h
    exact ha

/-! ## The properties -/

theorem sum_map_ofNat (l : List Nat) : (l.map Int.ofNat).sum = ((l.sum : Nat) : Int) := by
  induction l with
  | nil => rfl
  | cons a l ih => simp [ih]

theorem started_int64 : wrapInt64 started.counter = started.counter := by decide

/-- C1, as amended: from a state with counter 0 in which signals and resets can
be taken, `N < 2^63` increment steps followed by one reset step do happen, and
that reset sends exactly `N` on `requestsPerSecond` and leaves the counter 0. -/
theorem no_lost_increments (w : World) (N : Nat) (hc : w.counter = 0) (ha : w.accepting)
    (hr : w.resettable) (hN : N < 2 ^ 63) :
    ∃ s, run (List.replicate N Label.increment ++ [Label.reset]) w = some s ∧
      s.samples = w.samples ++ [(N : Int)] ∧ s.counter = 0 := by
  obtain ⟨s1, hrun1, hc1, hs1, -, -, -, hr1, -⟩ :=
    run_increments N w ha (by rw [hc]; decide)
  obtain ⟨s, hstep, hc2, hs2, -, -⟩ := step_reset_of_resettable (hr1 hr)
  refine ⟨s, ?_, ?_, hc2⟩
  · rw [run_append, hrun1]
    simp [run, hstep]
  · have hN' : ((N : Int)) < 2 ^ 63 := by exact_mod_cast hN
    rw [hs2, hs1, hc1, hc, zero_add, wrapInt64_of_range (by omega) hN']

/-- C1, the amended statement at the started middleware with three signals. -/
theorem no_lost_increments_witness :
    started.counter = 0 ∧ started.accepting ∧ started.resettable ∧ 3 < 2 ^ 63 ∧
      ∃ s, run (List.replicate 3 Label.increment ++ [Label.reset]) started = some s ∧
        s.samples = started.samples ++ [((3 : Nat) : Int)] ∧ s.counter = 0 :=
  ⟨rfl, by decide, by decide, by norm_num,
    no_lost_increments started 3 rfl (by decide) (by decide) (by norm_num)⟩

/-- C1 as stated fails: after `2^63` increment steps from counter 0 the reset
sends `-2^63`, not `2^63`. -/
theorem no_lost_increments_overflow :
    started.counter = 0 ∧
      ∃ s, run (List.replicate (2 ^ 63) Label.increment ++ [Label.reset]) started = some s ∧
        s.samples = [-9223372036854775808] ∧ ((2 ^ 63 : Nat) : Int) = 9223372036854775808 := by
  refine ⟨rfl, ?_⟩
  obtain ⟨s1, hrun1, hc1, hs1, -, -, -, hr1, -⟩ :=
    run_increments (2 ^ 63) started (by decide) started_int64
  obtain ⟨s, hstep, -, hs2, -, -⟩ := step_reset_of_resettable (hr1 (by decide))
  refine ⟨s, ?_, ?_, by norm_num⟩
  · rw [run_append, hrun1]
    show (step Label.reset s1).bind (run []) = some s
    rw [hstep]
    rfl
  · rw [hs2, hs1, hc1]
    have : wrapInt64 (started.counter + ((2 ^ 63 : Nat) : Int)) = -9223372036854775808 := by
      decide
    rw [this]
    rfl

theorem run_twoWindows : run twoWindows started = some afterTwoWindows := by rfl

theorem run_deliveries : run (twoWindows ++ [Label.deliver]) observed = some afterDeliveries := by
  rfl

theorem initialise_observed : initialise env0 (World.new "/metric" "web" true) = .ok observed := by
  rfl

theorem reset_leaves_zero {u v : World} (h : step .reset u = some v) (hp : v.panicked = false) :
    v.counter = 0 ∧ v.samples = u.samples ++ [u.counter] := by
  obtain ⟨-, -, c, -, hcase⟩ := step_reset_iff.mp h
  rcases hcase with ⟨-, rfl⟩ | ⟨-, -, -, d, hd, ⟨-, rfl⟩ | ⟨-, -, rfl⟩⟩
  · simp [World.crash, World.elapse] at hp
  · simp at hp
  · simp [World.samples, hd, Chan.push]

/-- C2, as amended: along every interleaving of increment, reset and delivery
steps from the freshly initialised state in which no window reaches `2^63`
increments, the samples sent are the increment counts of the closed windows in
order and the counter is the count of the open window, so the samples and the
counter add up to the number of increment steps; a reset that completes leaves
the counter at 0. -/
theorem window_isolation (env : Env) (pe name : String) (cb : Bool) (w s : World)
    (t : List Label) (hinit : initialise env (World.new pe name cb) = .ok w)
    (ht : steady t) (hfit : windowsFit 0 t = true) (hrun : run t w = some s) :
    s.samples = (tally 0 t).1.map Int.ofNat ∧ s.counter = ((tally 0 t).2 : Int) ∧
      s.samples.sum + s.counter = (t.count Label.increment : Int) ∧
      ∀ u v, step Label.reset u = some v → v.panicked = false → v.counter = 0 := by
  obtain ⟨hc, hs, -, -, hh, -⟩ := initialise_new_spec hinit
  obtain ⟨h1, h2, -⟩ := run_account t 0 w s hh ht (by simpa using hc) hfit hrun
  rw [hs, List.nil_append] at h1
  refine ⟨h1, h2, ?_, fun u v h hp => (reset_leaves_zero h hp).1⟩
  rw [h1, h2, sum_map_ofNat]
  have := tally_sum 0 t
  omega

/-- C2, the amended statement on the trace `twoWindows` of the started middleware. -/
theorem window_isolation_witness :
    initialise env0 (World.new "/metric" "" false) = .ok started ∧ steady twoWindows ∧
      windowsFit 0 twoWindows = true ∧ run twoWindows started = some afterTwoWindows ∧
      afterTwoWindows.samples = [2, 1] ∧ afterTwoWindows.counter = 0 ∧
      afterTwoWindows.samples.sum + afterTwoWindows.counter = 3 :=
  have h := window_isolation env0 "/metric" "" false started afterTwoWindows twoWindows rfl
    (by decide) rfl rfl
  ⟨rfl, by decide, rfl, rfl, h.1, h.2.1, h.2.2.1⟩

/-- C2 as stated fails: after `2^63` increment steps from the freshly
initialised state no sample was sent and the counter is `-2^63`, so samples and
counter do not add up to the `2^63` increment steps performed. -/
theorem window_isolation_overflow :
    initialise env0 (World.new "/metric" "" false) = .ok started ∧
      ∃ s, run (List.replicate (2 ^ 63) Label.increment) started = some s ∧
        s.samples.sum + s.counter = -9223372036854775808 ∧
        ((List.replicate (2 ^ 63) Label.increment).count Label.increment : Int)
          = 9223372036854775808 := by
  refine ⟨rfl, ?_⟩
  obtain ⟨s, hrun, hc, hs, -⟩ := run_increments (2 ^ 63) started (by decide) started_int64
  refine ⟨s, hrun, ?_, ?_⟩
  · have : wrapInt64 (started.counter + ((2 ^ 63 : Nat) : Int)) = -9223372036854775808 := by
      decide
    rw [hs, hc, this]
    rfl
  · rw [List.count_replicate_self]
    norm_num

theorem step_counter {l : Label} {u v : World} (h : step l u = some v) :
    (l = .increment → v.counter = wrapInt64 (u.counter + 1)) ∧
    (l = .reset → v.counter = 0 ∨ v.counter = u.counter) ∧
    (l ≠ .increment → l ≠ .reset → v.counter = u.counter) := by
  cases l with
  | increment =>
    obtain ⟨-, -, -, c, -, -, rfl⟩ := step_increment_iff.mp h
    simp
  | reset =>
    obtain ⟨-, -, c, -, hcase⟩ := step_reset_iff.mp h
    rcases hcase with ⟨-, rfl⟩ | ⟨-, -, -, d, -, ⟨-, rfl⟩ | ⟨-, -, rfl⟩⟩ <;> simp [World.crash, World.elapse]
  | deliver =>
    obtain ⟨-, -, c, x, rest, -, -, rfl⟩ := step_deliver_iff.mp h
    simp
  | close => simp [(step_quiet (Or.inl rfl) h).1]
  | exit t => simp [(step_quiet (Or.inr ⟨t, rfl⟩) h).1]

/-- C8, as amended: in every state reached from the freshly initialised state by
increment, reset and delivery steps in which no window reaches `2^63`
increments, the counter is not negative; an increment step taken below the
largest `int64` raises the counter by exactly 1, and from a non-negative counter
below the largest `int64` only a reset step lowers it, to 0. -/
theorem counter_nonnegative (env : Env) (pe name : String) (cb : Bool) (w s : World)
    (t : List Label) (hinit : initialise env (World.new pe name cb) = .ok w)
    (ht : steady t) (hfit : windowsFit 0 t = true) (hrun : run t w = some s) :
    0 ≤ s.counter ∧
      (∀ u v, 0 ≤ u.counter → u.counter < maxInt64 → step Label.increment u = some v →
        v.counter = u.counter + 1) ∧
      (∀ l u v, 0 ≤ u.counter → u.counter < maxInt64 → step l u = some v →
        v.counter < u.counter → l = Label.reset ∧ v.counter = 0) := by
  obtain ⟨hc, -, -, -, hh, -⟩ := initialise_new_spec hinit
  obtain ⟨-, h2, -⟩ := run_account t 0 w s hh ht (by simpa using hc) hfit hrun
  refine ⟨by rw [h2]; exact Int.ofNat_nonneg _, ?_, ?_⟩
  · intro u v h0 hmax h
    rw [(step_counter h).1 rfl]
    unfold maxInt64 at hmax
    exact wrapInt64_of_range (by omega) (by omega)
  · intro l u v h0 hmax h hlt
    obtain ⟨hi, hr, ho⟩ := step_counter h
    unfold maxInt64 at hmax
    by_cases h1 : l = Label.increment
    · have := hi h1
      rw [wrapInt64_of_range (by omega) (by omega)] at this
      omega
    · by_cases h2 : l = Label.reset
      · rcases hr h2 with h3 | h3
        · exact ⟨h2, h3⟩
        · omega
      · have := ho h1 h2
        omega

/-- C8, the amended statement on the trace `twoWindows` of the started middleware. -/
theorem counter_nonnegative_witness :
    initialise env0 (World.new "/metric" "" false) = .ok started ∧ steady twoWindows ∧
      windowsFit 0 twoWindows = true ∧ run twoWindows started = some afterTwoWindows ∧
      0 ≤ afterTwoWindows.counter :=
  ⟨rfl, by decide, rfl, rfl,
    (counter_nonnegative env0 "/metric" "" false started afterTwoWindows twoWindows rfl
      (by decide) rfl rfl).1⟩

/-- C8 as stated fails: `2^63 - 1` increment steps from the freshly initialised
state reach the largest `int64`, and the next increment step takes the counter
to `-2^63`: it is negative and the step has lowered it. -/
theorem counter_nonnegative_overflow :
    initialise env0 (World.new "/metric" "" false) = .ok started ∧
      ∃ u v, run (List.replicate (2 ^ 63 - 1) Label.increment) started = some u ∧
        u.counter = 9223372036854775807 ∧ step Label.increment u = some v ∧
        v.counter = -9223372036854775808 := by
  refine ⟨rfl, ?_⟩
  obtain ⟨u, hrun, hc, -, -, -, ha, -⟩ :=
    run_increments (2 ^ 63 - 1) started (by decide) started_int64
  obtain ⟨v, hstep, hv, -⟩ := step_increment_of_accepting ha
  have hu : u.counter = 9223372036854775807 := by
    rw [hc]
    decide
  refine ⟨u, v, hrun, hu, hstep, ?_⟩
  rw [hv, hu]
  decide

/-- C10, as amended: every increment step reports exactly one `IncrCounter` of 1
under `{Name, "totalRequests"}` and a reset step reports nothing, so after any
interleaving of increment, reset and delivery steps from the freshly
initialised state the reported total is the number of increment steps; it
equals the samples sent plus the counter when no window reaches `2^63`
increments. -/
theorem total_requests_accounting (env : Env) (pe name : String) (cb : Bool) (w s : World)
    (t : List Label) (hinit : initialise env (World.new pe name cb) = .ok w)
    (ht : steady t) (hrun : run t w = some s) :
    totalRequests s.Name s.log = (t.count Label.increment : Int) ∧
      (windowsFit 0 t = true →
        totalRequests s.Name s.log = s.samples.sum + s.counter) ∧
      (∀ u v, step Label.increment u = some v →
        v.log = u.log ++ [Event.IncrCounter [u.Name, "totalRequests"] 1]) ∧
      (∀ u v, step Label.reset u = some v →
        v.log = u.log ∧ totalRequests v.Name v.log = totalRequests u.Name u.log) := by
  obtain ⟨hc, hs, -, hl, hh, -⟩ := initialise_new_spec hinit
  obtain ⟨-, htot⟩ := run_totalRequests t w s hrun
  have hcount : totalRequests s.Name s.log = (t.count Label.increment : Int) := by
    rw [htot, hl]
    simp [totalRequests]
  refine ⟨hcount, ?_, ?_, ?_⟩
  · intro hfit
    obtain ⟨h1, h2, -⟩ := run_account t 0 w s hh ht (by simpa using hc) hfit hrun
    rw [hs, List.nil_append] at h1
    rw [hcount, h1, h2, sum_map_ofNat]
    have := tally_sum 0 t
    omega
  · intro u v h
    have := (step_log h).2.2.1 rfl
    rwa [float32_one] at this
  · intro u v h
    obtain ⟨hn, -, -, -, ho⟩ := step_log h
    have hlog := ho (by simp) (by simp)
    exact ⟨hlog, by rw [hn, hlog]⟩

/-- C10, the amended statement on the trace `twoWindows` of the started middleware. -/
theorem total_requests_accounting_witness :
    initialise env0 (World.new "/metric" "" false) = .ok started ∧ steady twoWindows ∧
      run twoWindows started = some afterTwoWindows ∧
      totalRequests afterTwoWindows.Name afterTwoWindows.log = 3 ∧
      totalRequests afterTwoWindows.Name afterTwoWindows.log
        = afterTwoWindows.samples.sum + afterTwoWindows.counter :=
  have h := total_requests_accounting env0 "/metric" "" false started afterTwoWindows
    twoWindows rfl (by decide) rfl
  ⟨rfl, by decide, rfl, h.1, h.2.1 rfl⟩

/-- C10 as stated fails: after `2^63` increment steps and a reset from the
freshly initialised state the reported total is `2^63` while the one sample sent
plus the counter is `-2^63`. -/
theorem total_requests_accounting_overflow :
    initialise env0 (World.new "/metric" "" false) = .ok started ∧
      ∃ s, run (List.replicate (2 ^ 63) Label.increment ++ [Label.reset]) started = some s ∧
        totalRequests s.Name s.log = 9223372036854775808 ∧
        s.samples.sum + s.counter = -9223372036854775808 := by
  refine ⟨rfl, ?_⟩
  obtain ⟨s1, hrun1, hc1, hs1, -, -, -, hr1, -⟩ :=
    run_increments (2 ^ 63) started (by decide) started_int64
  obtain ⟨s, hstep, hc2, hs2, -, -⟩ := step_reset_of_resettable (hr1 (by decide))
  have hrun : run (List.replicate (2 ^ 63) Label.increment ++ [Label.reset]) started = some s := by
    rw [run_append, hrun1]
    show (step Label.reset s1).bind (run []) = some s
    rw [hstep]
    rfl
  refine ⟨s, hrun, ?_, ?_⟩
  · obtain ⟨-, htot⟩ := run_totalRequests _ _ _ hrun
    rw [htot, List.count_append, List.count_replicate_self]
    have : totalRequests started.Name started.log = 0 := by decide
    rw [this]
    have : List.count Label.increment [Label.reset] = 0 := by decide
    rw [this]
    norm_num
  · have : wrapInt64 (started.counter + ((2 ^ 63 : Nat) : Int)) = -9223372036854775808 := by
      decide
    rw [hs2, hs1, hc1, hc2, this]
    rfl

theorem run_increments_frame (n : Nat) (w s : World)
    (h : run (List.replicate n Label.increment) w = some s) :
    s.requestsPerSecond = w.requestsPerSecond ∧ s.tasks = w.tasks ∧
      s.RequestPerSecondFunc = w.RequestPerSecondFunc ∧ s.panicked = w.panicked := by
  induction n generalizing w with
  | zero =>
    simp [run] at h
    subst h
    exact ⟨rfl, rfl, rfl, rfl⟩
  | succ n ih =>
    rw [List.replicate_succ] at h
    simp only [run] at h
    cases hs : step Label.increment w with
    | none => simp [hs] at h
    | some w1 =>
      rw [hs] at h
      obtain ⟨h1, h2, h3, h4⟩ := ih w1 (by simpa using h)
      obtain ⟨-, -, -, c, -, -, rfl⟩ := step_increment_iff.mp hs
      exact ⟨h1, h2, h3, h4⟩

theorem filter_increments (n : Nat) (k : List String) (x : Int) (l : List Event) :
    (List.replicate n (Event.IncrCounter k x) ++ l).filter isRateEvent
      = l.filter isRateEvent := by
  induction n with
  | zero => rfl
  | succ n ih =>
    rw [List.replicate_succ, List.cons_append, List.filter_cons_of_neg (by simp [isRateEvent])]
    exact ih

theorem step_reset_frame {w s : World} (hr : w.resettable) (h : step .reset w = some s) :
    ∃ d, w.requestsPerSecond = some d ∧ s.requestsPerSecond = some (d.push w.counter) ∧
      s.tasks = w.tasks ∧ s.Name = w.Name ∧
      s.RequestPerSecondFunc = w.RequestPerSecondFunc ∧ s.log = w.log ∧
      s.panicked = false := by
  obtain ⟨s2, hstep2, -, -, -, hp2⟩ := step_reset_of_resettable hr
  rw [hstep2] at h
  cases h
  obtain ⟨hp, -, c, -, hcase⟩ := step_reset_iff.mp hstep2
  rcases hcase with ⟨-, rfl⟩ | ⟨-, -, -, d, hd, ⟨-, rfl⟩ | ⟨-, -, rfl⟩⟩
  · simp [World.crash, World.elapse] at hp2
  · simp at hp2
  · exact ⟨d, hd, rfl, rfl, rfl, rfl, rfl, hp⟩

theorem step_deliver_of_buffered {w : World} {c : Chan Int} {v : Int} {rest : List Int}
    (hp : w.panicked = false) (ht : Task.watchRequestsPerSecond ∈ w.tasks)
    (hc : w.requestsPerSecond = some c) (hb : c.buffered = v :: rest) :
    ∃ s, step .deliver w = some s ∧
      s.log = w.log ++ report w.Name w.RequestPerSecondFunc v :=
  ⟨_, step_deliver_iff.mpr ⟨hp, ht, c, v, rest, hc, hb, rfl⟩, rfl⟩

/-- One window of `n` signals on `observed`, closed by a reset and delivered:
the rate calls made are the report of `n`. -/
theorem run_window_delivered (n : Nat) (hn : (n : Int) < 2 ^ 63) :
    ∃ s, run (List.replicate n Label.increment ++ [Label.reset, Label.deliver]) observed
        = some s ∧
      s.log.filter isRateEvent = report "web" true n := by
  obtain ⟨s1, hrun1, hc1, -, hl1, hn1, -, hr1, -⟩ :=
    run_increments n observed (by decide) (by decide)
  obtain ⟨hq1, ht1, hcb1, -⟩ := run_increments_frame _ _ _ hrun1
  have hcn : s1.counter = n := by
    rw [hc1]
    show wrapInt64 (0 + (n : Int)) = n
    rw [zero_add, wrapInt64_of_range (by omega) hn]
  have hres := hr1 (by decide)
  obtain ⟨s2, hstep2, -⟩ := step_reset_of_resettable hres
  obtain ⟨d, hd, hq2, ht2, hn2, hcb2, hl2, hp2⟩ := step_reset_frame hres hstep2
  have hdd : d = Chan.make 1 := by
    rw [hq1] at hd
    exact (Option.some.inj hd).symm
  have hb : (d.push s1.counter).buffered = [s1.counter] := by
    rw [hdd]
    rfl
  obtain ⟨s3, hstep3, hl3⟩ := step_deliver_of_buffered hp2
    (by rw [ht2, ht1]; decide) hq2 hb
  refine ⟨s3, ?_, ?_⟩
  · rw [run_append, hrun1]
    show (step Label.reset s1).bind (run [Label.deliver]) = _
    rw [hstep2]
    show (step Label.deliver s2).bind (run []) = _
    rw [hstep3]
    rfl
  · rw [hl3, hl2, hl1, hn2, hn1, hcb2, hcb1, hcn]
    show ((([] : List Event) ++ List.replicate n _) ++ report "web" true n).filter _ = _
    rw [List.nil_append, filter_increments, filter_report]

/-- C6, as amended: every sample `v` that `watchRequestsPerSecond` receives
causes exactly one `AddSample` under `{Name, "requestPerSecond"}` and one
`SetGauge` under `{Name, "requestPerSecondCurrent"}`, both carrying
`float32(v)`, which is `v` itself when `|v| < 2^24`, and one call of
`RequestPerSecondFunc` with `v` when the callback is set and none when it is
nil; after any trace from the freshly initialised state the rate calls in the
log are exactly these reports for the samples received, in the order received,
which is the order the resets sent them. -/
theorem sample_delivery (env : Env) (pe name : String) (cb : Bool) (w s : World)
    (t : List Label) (hinit : initialise env (World.new pe name cb) = .ok w)
    (hrun : run t w = some s) :
    s.log.filter isRateEvent = s.taken.flatMap (report s.Name cb) ∧
      s.taken <+: s.samples ∧
      (∀ u v, step Label.deliver u = some v →
        ∃ c current rest, u.requestsPerSecond = some c ∧ c.buffered = current :: rest ∧
          v.taken = u.taken ++ [current] ∧
          v.log = u.log ++
            ([Event.AddSample [u.Name, "requestPerSecond"] (float32 current),
              Event.SetGauge [u.Name, "requestPerSecondCurrent"] (float32 current)]
              ++ (if u.RequestPerSecondFunc then [Event.RequestPerSecondFunc current] else []))) ∧
      (∀ u v, step Label.reset u = some v → v.panicked = false →
        v.samples = u.samples ++ [u.counter]) ∧
      (∀ x : Int, x.natAbs < 2 ^ 24 → float32 x = x) := by
  obtain ⟨-, -, htk, hl, -, -, -, hcb, -⟩ := initialise_new_spec hinit
  have hw : w.reported := by
    constructor
    · simp [hl, htk]
    · intro c hc
      rcases initialise_cases hinit with ⟨h0, -⟩ | ⟨-, -, nm, -, rfl⟩
      · simp [World.new] at h0
      · simp at hc
        subst hc
        simp [Chan.make]
  obtain ⟨h1, -⟩ := run_reported t w s hw hrun
  have hcb' : s.RequestPerSecondFunc = cb := by
    have : ∀ (t : List Label) (w s : World), run t w = some s →
        s.RequestPerSecondFunc = w.RequestPerSecondFunc := by
      intro t
      induction t with
      | nil => intro w s h; simp [run] at h; rw [h]
      | cons l t ih =>
        intro w s h
        simp only [run] at h
        cases hs : step l w with
        | none => simp [hs] at h
        | some w1 =>
          rw [hs] at h
          rw [ih w1 s (by simpa using h), (step_log hs).2.1]
    rw [this t w s hrun, hcb]
  refine ⟨by rw [← hcb']; exact h1, ?_, ?_, fun u v h hp => (reset_leaves_zero h hp).2,
    fun x hx => float32_exact hx⟩
  · unfold World.taken World.samples
    cases s.requestsPerSecond with
    | none => exact List.prefix_refl _
    | some c => exact List.take_prefix _ _
  · intro u v h
    obtain ⟨-, -, c, current, rest, hc, hb, rfl⟩ := step_deliver_iff.mp h
    refine ⟨c, current, rest, hc, hb, ?_, rfl⟩
    simp [World.taken, hc, Chan.pop, (take_succ_of_drop hb).2]

/-- C6, the amended statement on the started middleware with a callback: two
windows, both delivered. -/
theorem sample_delivery_witness :
    initialise env0 (World.new "/metric" "web" true) = .ok observed ∧
      run (twoWindows ++ [Label.deliver]) observed = some afterDeliveries ∧
      afterDeliveries.log.filter isRateEvent =
        [Event.AddSample ["web", "requestPerSecond"] 2,
         Event.SetGauge ["web", "requestPerSecondCurrent"] 2,
         Event.RequestPerSecondFunc 2,
         Event.AddSample ["web", "requestPerSecond"] 1,
         Event.SetGauge ["web", "requestPerSecondCurrent"] 1,
         Event.RequestPerSecondFunc 1] :=
  ⟨rfl, rfl,
    (sample_delivery env0 "/metric" "web" true observed afterDeliveries
      (twoWindows ++ [Label.deliver]) rfl rfl).1.trans (by decide)⟩

/-- C6 as stated fails: a window of 16777217 signals on the started middleware
with a callback is reported to the sink as 16777216, in the sample and in the
gauge, while the callback gets 16777217. -/
theorem sample_delivery_rounding :
    initialise env0 (World.new "/metric" "web" true) = .ok observed ∧
      ∃ s, run (List.replicate 16777217 Label.increment ++ [Label.reset, Label.deliver])
          observed = some s ∧
        s.log.filter isRateEvent =
          [Event.AddSample ["web", "requestPerSecond"] 16777216,
           Event.SetGauge ["web", "requestPerSecondCurrent"] 16777216,
           Event.RequestPerSecondFunc 16777217] := by
  refine ⟨rfl, ?_⟩
  obtain ⟨s, hrun, hlog⟩ := run_window_delivered 16777217 (by norm_num)
  exact ⟨s, hrun, hlog.trans (by decide)⟩

/-- C5: after a successful `StartMetrics` a further call, in any surroundings, is
a no-op that returns the same state: no field changes, no sink is built and no
goroutine is started; so any number `k ≥ 1` of calls ends in the state of the
first, which for a middleware not yet started has one more sink and the four
goroutines more than before. -/
theorem idempotent_start (env env2 : Env) (w w1 : World) (h : StartMetrics env w = .ok w1) :
    StartMetrics env2 w1 = .ok w1 ∧ (∀ k, startTimes env2 k w1 = .ok w1) ∧
      (∀ k, 1 ≤ k → startTimes env k w = .ok w1) ∧
      (w.counterChan = none →
        w1.tasks = w.tasks ++ [Task.watchRequestsPerSecond, Task.watchCounter,
                               Task.watchReset, Task.startReset] ∧
        w1.sinks = w.sinks + 1) := by
  have hsome : w1.counterChan.isSome = true := by
    rcases initialise_cases h with ⟨h0, rfl⟩ | ⟨-, -, nm, -, rfl⟩
    · exact h0
    · rfl
  have hnoop : ∀ e : Env, StartMetrics e w1 = .ok w1 := by
    intro e
    simp [StartMetrics, initialise, hsome]
  have hrep : ∀ (e : Env) (k : Nat), startTimes e k w1 = .ok w1 := by
    intro e k
    induction k with
    | zero => rfl
    | succ k ih => simp [startTimes, hnoop e, ih]
  refine ⟨hnoop env2, hrep env2, ?_, ?_⟩
  · intro k hk
    obtain ⟨j, rfl⟩ : ∃ j, k = j + 1 := ⟨k - 1, by omega⟩
    simp [startTimes, h, hrep env j]
  · intro hnone
    rcases initialise_cases h with ⟨h0, -⟩ | ⟨-, -, nm, -, rfl⟩
    · simp [hnone] at h0
    · exact ⟨rfl, rfl⟩

/-- C5 on the middleware of `example/main.go`: started three times. -/
theorem idempotent_start_witness :
    StartMetrics env0 (World.new "/metric" "" false) = .ok started ∧
      StartMetrics env0 started = .ok started ∧
      startTimes env0 3 (World.new "/metric" "" false) = .ok started ∧
      started.tasks = [Task.watchRequestsPerSecond, Task.watchCounter, Task.watchReset,
                       Task.startReset] ∧
      started.sinks = 1 :=
  have h := idempotent_start env0 env0 (World.new "/metric" "" false) started rfl
  ⟨rfl, h.1, h.2.2.1 3 (by decide), (h.2.2.2 rfl).1, (h.2.2.2 rfl).2⟩

/-- C7: with an empty `PrometheusEndpoint`, whatever the request, `ServeHTTP` on
a middleware whose `watchCounter` waits for a signal returns; of the calls a
serving goroutine makes it has made exactly the call of the wrapped handler and
then the `requestTimeNanoseconds` gauge, none on the exporter; it has handed
exactly one signal to `counterChan`, and the case `watchCounter` runs for that
signal counts the request once. -/
theorem scrape_disabled (env : Env) (w w1 : World) (r : Request)
    (hpe : w.PrometheusEndpoint = "") (hinit : initialise env w = .ok w1)
    (hl : w1.listening) :
    ∃ w2, ServeHTTP env w r = .ok w2 ∧
      w2.log.filter isServeEvent = w1.log.filter isServeEvent ++
        [Event.HandlerServeHTTP r,
         Event.SetGauge [w1.Name, "requestTimeNanoseconds"]
           (float32 (sinceNanoseconds (w1.clock + env.deferDelay) w1.clock))] ∧
      w2.counterChan.map (fun c => c.sent.length) =
        w1.counterChan.map (fun c => c.sent.length + 1) ∧
      w2.holding = true ∧
      (w2.counterLock = some false →
        ∃ w3, watchCounter true w2 = some w3 ∧ w3.listening ∧
          w3.counter = wrapInt64 (w2.counter + 1) ∧
          w3.log = w2.log ++ [Event.IncrCounter [w1.Name, "totalRequests"] 1]) := by
  have hno : ¬ (0 < w1.PrometheusEndpoint.utf8ByteSize ∧
      r.RequestURI = w1.PrometheusEndpoint) := by
    rw [initialise_endpoint hinit, hpe]
    rintro ⟨h, -⟩
    exact absurd h (by decide)
  exact ServeHTTP_served hinit hl hno

/-- C7 on a middleware without scrape path, for the request `GET /metric`. -/
theorem scrape_disabled_witness :
    (World.new "" "" false).PrometheusEndpoint = "" ∧
      initialise env0 (World.new "" "" false)
        = .ok { started with PrometheusEndpoint := "" } ∧
      ({ started with PrometheusEndpoint := "" } : World).listening ∧
      ∃ w2, ServeHTTP env0 (World.new "" "" false) scrapeRequest = .ok w2 ∧
        w2.log.filter isServeEvent =
          [Event.HandlerServeHTTP scrapeRequest,
           Event.SetGauge ["host", "requestTimeNanoseconds"] 80] ∧
        w2.counterChan.map (fun c => c.sent.length) = some 1 :=
  have h := scrape_disabled env0 (World.new "" "" false)
    { started with PrometheusEndpoint := "" } scrapeRequest rfl rfl (by decide)
  ⟨rfl, rfl, by decide, h.choose, h.choose_spec.1, h.choose_spec.2.1.trans (by decide),
    h.choose_spec.2.2.1.trans (by decide)⟩

/-- C3, as amended: with a non-empty `PrometheusEndpoint`, a request whose
`RequestURI` equals it is handed to the exporter and nothing else happens (no
signal on `counterChan`, no call of the wrapped handler, no gauge); for a
request with any other `RequestURI`, on a middleware whose `watchCounter` waits
for a signal, `ServeHTTP` hands exactly one signal to `counterChan`, calls the
wrapped handler exactly once and not the exporter, and the case `watchCounter`
runs for that signal counts the request once. -/
theorem scrape_isolation (env : Env) (w w1 : World) (r : Request)
    (hpe : w.PrometheusEndpoint ≠ "") (hinit : initialise env w = .ok w1) :
    (r.RequestURI = w.PrometheusEndpoint →
      ServeHTTP env w r = .ok { w1 with log := w1.log ++ [Event.PromhttpServeHTTP r] }) ∧
    (r.RequestURI ≠ w.PrometheusEndpoint → w1.listening →
      ∃ w2, ServeHTTP env w r = .ok w2 ∧
        w2.log.filter isServeEvent = w1.log.filter isServeEvent ++
          [Event.HandlerServeHTTP r,
           Event.SetGauge [w1.Name, "requestTimeNanoseconds"]
             (float32 (sinceNanoseconds (w1.clock + env.deferDelay) w1.clock))] ∧
        w2.counterChan.map (fun c => c.sent.length) =
          w1.counterChan.map (fun c => c.sent.length + 1) ∧
        w2.holding = true ∧
        (w2.counterLock = some false →
          ∃ w3, watchCounter true w2 = some w3 ∧ w3.listening ∧
            w3.counter = wrapInt64 (w2.counter + 1) ∧
            w3.log = w2.log ++ [Event.IncrCounter [w1.Name, "totalRequests"] 1])) := by
  have he := initialise_endpoint hinit
  constructor
  · intro huri
    exact ServeHTTP_scrape hinit (by rw [he]; exact utf8ByteSize_pos hpe) (by rw [he]; exact huri)
  · intro huri hl
    have hno : ¬ (0 < w1.PrometheusEndpoint.utf8ByteSize ∧
        r.RequestURI = w1.PrometheusEndpoint) := by
      rw [he]
      exact fun h => huri h.2
    exact ServeHTTP_served hinit hl hno

/-- C3, the amended statement on the middleware of `example/main.go`, for
`GET /metric` and for `GET /work`. -/
theorem scrape_isolation_witness :
    initialise env0 (World.new "/metric" "" false) = .ok started ∧ started.listening ∧
      ServeHTTP env0 (World.new "/metric" "" false) scrapeRequest
        = .ok { started with log := [Event.PromhttpServeHTTP scrapeRequest] } ∧
      ∃ w2, ServeHTTP env0 (World.new "/metric" "" false) workRequest = .ok w2 ∧
        w2.log.filter isServeEvent =
          [Event.HandlerServeHTTP workRequest,
           Event.SetGauge ["host", "requestTimeNanoseconds"] 80] ∧
        w2.counterChan.map (fun c => c.sent.length) = some 1 :=
  have h1 := scrape_isolation env0 (World.new "/metric" "" false) started scrapeRequest
    (by decide) rfl
  have h2 := (scrape_isolation env0 (World.new "/metric" "" false) started workRequest
    (by decide) rfl).2 (by decide) (by decide)
  ⟨rfl, by decide, h1.1 rfl, h2.choose, h2.choose_spec.1,
    h2.choose_spec.2.1.trans (by decide), h2.choose_spec.2.2.1.trans (by decide)⟩

/-- C3 as stated fails: the path of `GET /metric?x=1` equals the scrape path
`/metric`, yet `ServeHTTP` hands a signal to `counterChan`, calls the wrapped
handler, reports the gauge and does not call the exporter. -/
theorem scrape_isolation_query :
    (World.new "/metric" "" false).PrometheusEndpoint = "/metric" ∧
      scrapeWithQuery.URL.Path = "/metric" ∧
      ∃ w2, ServeHTTP env0 (World.new "/metric" "" false) scrapeWithQuery = .ok w2 ∧
        w2.log.filter isServeEvent =
          [Event.HandlerServeHTTP scrapeWithQuery,
           Event.SetGauge ["host", "requestTimeNanoseconds"] 80] ∧
        w2.counterChan.map (fun c => c.sent.length) = some 1 ∧
        w2.holding = true :=
  ⟨rfl, rfl, _, rfl, by decide, rfl, rfl⟩

/-- C4 fails on the code: the wrapped handler runs for 1000000 ns on `GET /work`
and the clock stands at 1000100 ns when `ServeHTTP` returns, but the gauge
reported under `{Name, "requestTimeNanoseconds"}` is 80, the time from
`time.Now()` to the `defer` statement. -/
theorem latency_taken_at_defer :
    env0.handler workRequest = 1000000 ∧
      ∃ w2, ServeHTTP env0 (World.new "/metric" "" false) workRequest = .ok w2 ∧
        w2.clock = 1000100 ∧
        w2.log.getLast? = some (Event.SetGauge ["host", "requestTimeNanoseconds"] 80) :=
  ⟨rfl, _, rfl, rfl, rfl⟩

/-- C9 fails on the code: after `counterChan` is closed and `watchCounter`,
`watchReset` and `watchRequestsPerSecond` have returned, `startReset` is still
running, its next `reset()` sends on the closed `resetChan` and panics; and
`startReset` has no way to return in any state. -/
theorem shutdown_leaves_timer :
    (∃ u s, run [Label.close, Label.exit Task.watchCounter, Label.exit Task.watchReset,
          Label.exit Task.watchRequestsPerSecond] started = some u ∧
        u.tasks = [Task.startReset] ∧
        u.resetChan.map (fun c => c.closed) = some true ∧
        step Label.reset u = some s ∧ s.panicked = true) ∧
      ∀ w, step (Label.exit Task.startReset) w = none := by
  refine ⟨⟨_, _, rfl, rfl, rfl, rfl, rfl⟩, ?_⟩
  intro w
  unfold step
  split <;> rfl

end Middleware
